import Mathlib

/-!
Verification of the todo-list action/reducer layer of the rrts repository.

The embedded code (from the repository notes, reducers/todos.ts and
actions/todos.ts in their final form):

  export const todosReducer = (state: Todo[] = [], action: Action) => {
    switch (action.type) {
      case ActionTypes.fetchTodos:
        return action.payload;
      case ActionTypes.deleteTodo:
        return state.filter((todo: Todo) => todo.id !== action.payload);
      default:
        return state;
    }
  };

  export const deleteTodo = (id: number): DeleteTodoAction => {
    return { type: ActionTypes.deleteTodo, payload: id };
  };

Items are records with an integer identifier, a title and a completion
flag.  Actions form a tagged union discriminated by the type field; the
store may additionally dispatch initialization probe actions whose tag is
neither of the two known ones, which the reducer's default branch passes
through.  Those unknown tags are modelled by the third constructor below.
-/

namespace Rrts

/-- An item of the list state: identifier, title, completion flag
(interface Todo in actions/todos.ts). -/
structure Todo where
  id : Int
  title : String
  completed : Bool
deriving DecidableEq, Repr

/-- The discriminating tag of an action: the two members of the ActionTypes
enum, plus arbitrary unknown tags (for example the store's
initialization probe actions). -/
inductive ActionTag where
  | fetchTodos
  | deleteTodo
  | unknown (name : String)
deriving DecidableEq, Repr

/-- The tagged union of actions reaching the reducer: FetchTodosAction
carries a list of items, DeleteTodoAction carries the identifier to
delete, and any other tag carries no semantic payload. -/
inductive Action where
  | fetchTodos (payload : List Todo)
  | deleteTodo (payload : Int)
  | other (tag : String)
deriving DecidableEq, Repr

/-- The type field of an action record. -/
def Action.tag : Action → ActionTag
  | .fetchTodos _ => .fetchTodos
  | .deleteTodo _ => .deleteTodo
  | .other s => .unknown s

/-- The deleteTodo action creator: synchronously constructs the
DeleteTodoAction record with the given identifier as payload. -/
def deleteTodo (id : Int) : Action :=
  Action.deleteTodo id

/-- The reducer: switch on the action tag; fetchTodos returns the payload
verbatim, deleteTodo filters the state by identifier, the default branch
returns the state unchanged. -/
def todosReducer (state : List Todo) (action : Action) : List Todo :=
  match action with
  | .fetchTodos payload => payload
  | .deleteTodo payload => state.filter (fun todo => todo.id != payload)
  | .other _ => state

/-- A dynamically-typed payload value, as it sits in a raw action record
before the type guard has narrowed it: either a list of items, a number,
or nothing (the probe actions carry no semantic payload). -/
inductive JsValue where
  | todoList (todos : List Todo)
  | num (n : Int)
  | undef
deriving DecidableEq, Repr

/-- A raw action record: a tag together with an unnarrowed payload. -/
structure RawAction where
  type : ActionTag
  payload : JsValue
deriving DecidableEq, Repr

/-- Erase a well-typed action to its raw record form. -/
def Action.toRaw : Action → RawAction
  | .fetchTodos P => ⟨.fetchTodos, .todoList P⟩
  | .deleteTodo k => ⟨.deleteTodo, .num k⟩
  | .other s => ⟨.unknown s, .undef⟩

/-- The reducer evaluated over raw action records.  Each branch first
narrows the payload to the shape its tag declares; accessing the payload
under the wrong shape is the one conceivable failure point and is
modelled as an error.  The default branch touches no payload. -/
def todosReducerDyn (state : List Todo) (a : RawAction) :
    Except String (List Todo) :=
  match a.type with
  | .fetchTodos =>
      match a.payload with
      | .todoList l => .ok l
      | _ => .error "fetchTodos payload accessed under the wrong shape"
  | .deleteTodo =>
      match a.payload with
      | .num k => .ok (state.filter (fun todo => todo.id != k))
      | _ => .error "deleteTodo payload accessed under the wrong shape"
  | .unknown _ => .ok state

/-- If no item of the list carries the identifier k, filtering by k is the
identity. -/
theorem filter_id_ne_eq_self (S : List Todo) (k : Int)
    (h : ∀ t ∈ S, t.id ≠ k) :
    S.filter (fun t => t.id != k) = S := by
  induction S with
  | nil => rfl
  | cons a S ih =>
      have ha : a.id ≠ k := h a (List.mem_cons_self a S)
      have hrest : ∀ t ∈ S, t.id ≠ k := fun t ht => h t (List.mem_cons_of_mem a ht)
      simp [List.filter_cons, ha, ih hrest]

/-- C1: for every state S and every FetchList payload P, the reducer
returns exactly P, discarding the prior state. -/
theorem todosReducer_fetch (S P : List Todo) :
    todosReducer S (Action.fetchTodos P) = P := rfl

/-- C2: if the identifiers of S are pairwise distinct and S contains an
item t with identifier k, then deleting k splits S around t and returns
the surrounding parts in order: exactly t is excluded and the relative
order of the rest is preserved. -/
theorem todosReducer_delete_present (S : List Todo) (t : Todo) (k : Int)
    (hmem : t ∈ S) (hid : t.id = k) (hnodup : (S.map Todo.id).Nodup) :
    ∃ l1 l2, S = l1 ++ t :: l2 ∧
      todosReducer S (Action.deleteTodo k) = l1 ++ l2 := by
  induction S with
  | nil => cases hmem
  | cons a S ih =>
      have hnd := hnodup
      rw [List.map_cons, List.nodup_cons] at hnd
      by_cases hak : a.id = k
      · -- the head is the item with identifier k; the tail contains no k
        have hta : t = a := by
          rcases List.mem_cons.mp hmem with h | h
          · exact h
          · exfalso
            exact hnd.1 (hak ▸ hid ▸ List.mem_map_of_mem Todo.id h)
        have htail : ∀ u ∈ S, u.id ≠ k := by
          intro u hu hc
          exact hnd.1 (hak ▸ hc ▸ List.mem_map_of_mem Todo.id hu)
        refine ⟨[], S, by simp [hta], ?_⟩
        simp [todosReducer, List.filter_cons, hak,
          filter_id_ne_eq_self S k htail]
      · -- the head survives the filter and the item lies in the tail
        have hta : t ≠ a := fun h => hak (h ▸ hid)
        have hmem' : t ∈ S := by
          rcases List.mem_cons.mp hmem with h | h
          · exact absurd h hta
          · exact h
        rcases ih hmem' hnd.2 with ⟨l1, l2, hsplit, hfilter⟩
        refine ⟨a :: l1, l2, by rw [hsplit]; rfl, ?_⟩
        simpa [todosReducer, List.filter_cons, hak] using
          congrArg (List.cons a) hfilter

/-- Witness for C2 at a concrete state. -/
theorem todosReducer_delete_present_witness :
    ∃ l1 l2,
      [Todo.mk 1 "a" false, Todo.mk 2 "b" false] = l1 ++ Todo.mk 1 "a" false :: l2 ∧
      todosReducer [Todo.mk 1 "a" false, Todo.mk 2 "b" false]
        (Action.deleteTodo 1) = l1 ++ l2 :=
  todosReducer_delete_present
    [Todo.mk 1 "a" false, Todo.mk 2 "b" false]
    (Todo.mk 1 "a" false) 1 (by decide) (by decide) (by decide)

/-- C3: for every state S and every action whose tag is neither fetchTodos
nor deleteTodo, the reducer returns S unchanged. -/
theorem todosReducer_unknown (S : List Todo) (a : Action)
    (h1 : ∀ P, a ≠ Action.fetchTodos P)
    (h2 : ∀ k, a ≠ Action.deleteTodo k) :
    todosReducer S a = S := by
  cases a with
  | fetchTodos P => exact absurd rfl (h1 P)
  | deleteTodo k => exact absurd rfl (h2 k)
  | other s => rfl

/-- Witness for C3 at a store-initialization probe action. -/
theorem todosReducer_unknown_witness :
    todosReducer [Todo.mk 1 "a" false] (Action.other "@@redux/INIT")
      = [Todo.mk 1 "a" false] :=
  todosReducer_unknown [Todo.mk 1 "a" false] (Action.other "@@redux/INIT")
    (fun _ h => Action.noConfusion h) (fun _ h => Action.noConfusion h)

/-- C4: deleting an identifier that no item of S carries returns a list
equal to S. -/
theorem todosReducer_delete_absent (S : List Todo) (k : Int)
    (h : ∀ t ∈ S, t.id ≠ k) :
    todosReducer S (Action.deleteTodo k) = S :=
  filter_id_ne_eq_self S k h

/-- Witness for C4 at a concrete state and absent identifier. -/
theorem todosReducer_delete_absent_witness :
    todosReducer [Todo.mk 2 "b" false] (Action.deleteTodo 1)
      = [Todo.mk 2 "b" false] :=
  todosReducer_delete_absent [Todo.mk 2 "b" false] 1 (by decide)

/-- C5 counterexample: from the empty state (whose identifiers are
trivially pairwise distinct), a fetchTodos action whose payload repeats
an identifier yields a state with a repeated identifier. -/
theorem todosReducer_nodup_counterexample :
    (([] : List Todo).map Todo.id).Nodup ∧
    ¬ (((todosReducer []
          (Action.fetchTodos [Todo.mk 1 "a" false, Todo.mk 1 "b" false])).map
            Todo.id).Nodup) := by
  constructor
  · simp
  · decide

/-- C5 amended: if the identifiers of S are pairwise distinct and, in the
fetchTodos case, the identifiers of the incoming payload are pairwise
distinct as well, then the identifiers of the reducer's result are
pairwise distinct. -/
theorem todosReducer_preserves_nodup (S : List Todo) (a : Action)
    (hS : (S.map Todo.id).Nodup)
    (ha : ∀ P, a = Action.fetchTodos P → (P.map Todo.id).Nodup) :
    ((todosReducer S a).map Todo.id).Nodup := by
  cases a with
  | fetchTodos P => exact ha P rfl
  | deleteTodo k =>
      have hsub : List.Sublist ((S.filter (fun t => t.id != k)).map Todo.id) (S.map Todo.id) :=
        (List.filter_sublist S).map Todo.id
      exact hS.sublist hsub
  | other s => exact hS

/-- Witness for the amended C5 at a concrete state and action. -/
theorem todosReducer_preserves_nodup_witness :
    ((todosReducer [Todo.mk 1 "a" false, Todo.mk 2 "b" false]
        (Action.deleteTodo 1)).map Todo.id).Nodup :=
  todosReducer_preserves_nodup
    [Todo.mk 1 "a" false, Todo.mk 2 "b" false] (Action.deleteTodo 1)
    (by decide) (fun _ h => Action.noConfusion h)

/-- C7: over the declared input domain (any state and any well-typed
action), evaluating the reducer on the raw record form of the action
reaches no error branch and agrees with the pure reducer: the function is
total and raises no exception. -/
theorem todosReducerDyn_ok (s : List Todo) (a : Action) :
    todosReducerDyn s a.toRaw = Except.ok (todosReducer s a) := by
  cases a <;> rfl

/-- C8: the deleteTodo action creator returns the DeleteTodoAction whose
tag is deleteTodo and whose payload is exactly the given identifier. -/
theorem deleteTodo_spec (id : Int) :
    (deleteTodo id).tag = ActionTag.deleteTodo ∧
    deleteTodo id = Action.deleteTodo id :=
  ⟨rfl, rfl⟩

/-- C9: an item belongs to the result of deleting k exactly when it
belongs to S and its identifier differs from k: every occurrence of
identifier k is removed, none remains, and all other items remain. -/
theorem todosReducer_delete_mem_iff (S : List Todo) (k : Int) (t : Todo) :
    t ∈ todosReducer S (Action.deleteTodo k) ↔ t ∈ S ∧ t.id ≠ k := by
  simp [todosReducer, List.mem_filter]

/-- C10: deleting the same identifier twice yields the same list as
deleting it once. -/
theorem todosReducer_delete_idem (S : List Todo) (k : Int) :
    todosReducer (todosReducer S (Action.deleteTodo k)) (Action.deleteTodo k)
      = todosReducer S (Action.deleteTodo k) := by
  simp [todosReducer, List.filter_filter]

end Rrts
